import Mathlib

set_option maxRecDepth 8000

/-! Verification development for the orchestration logic of a
document-grounded question-answering assistant.  The repository has two
front-ends: a console loop (`main.py`) and a chat UI
(`assistente_suporte.py`), both driving the same
load-chunk-index-answer pipeline.  Python strings are modelled as
`List Char` where character-level operations matter, and as `String`
where only whole-string operations occur. -/

/-- Convert a string literal to the `List Char` representation used for
character-level modelling of Python strings. -/
def toL (s : String) : List Char := s.data

namespace Console

/-- Python `str.lower` (ASCII range, sufficient for comparison against the
all-ASCII exit word used by the code). -/
def pyLower (s : List Char) : List Char := s.map Char.toLower

/-- The Python whitespace predicate used by `str.strip()`. -/
def pyIsSpace (c : Char) : Bool :=
  c = ' ' || c = '\t' || c = '\n' || c = '\r' || c = '\x0b' || c = '\x0c'

/-- Python `str.strip()`: remove leading and trailing whitespace. -/
def pyStrip (s : List Char) : List Char :=
  ((s.dropWhile pyIsSpace).reverse.dropWhile pyIsSpace).reverse

/-- Outcome of one iteration of the console question loop for a given raw
input line (`main.py` lines 70-77): leave the loop, silently skip the
input, or forward a question to the QA chain. -/
inductive Action where
  | quits : Action
  | skips : Action
  | asks (q : List Char) : Action
deriving DecidableEq, Repr

/-- `main.py` lines 70-77: first `pergunta.lower() == 'sair'` is tested on
the raw (unstripped) input; then input that is empty after `strip()` is
skipped with `continue`; otherwise the raw input itself is sent to
`qa_chain.invoke`. -/
def handleInput (pergunta : List Char) : Action :=
  if pyLower pergunta = toL "sair" then .quits
  else if pyStrip pergunta = [] then .skips
  else .asks pergunta

/-- A fatal setup stage at which `main.py` calls `exit()`. -/
inductive Stage where
  | missingKey : Stage
  | missingDir : Stage
  | noDocs : Stage
deriving DecidableEq, Repr

/-- Environment of one console run: whether `GOOGLE_API_KEY` is present in
the environment, whether `./base_de_conhecimento` exists, and the
documents returned by the external `DirectoryLoader.load()` call. -/
structure Env where
  hasApiKey : Bool
  dirExists : Bool
  documentos : List (List Char)

/-- Result of the sequential setup section of `main.py` (lines 14-38):
either the script exits at one of the three fatal checks, or it reaches
the interactive loop. -/
inductive Setup where
  | exitedAt (s : Stage) : Setup
  | enteredLoop : Setup
deriving DecidableEq, Repr

/-- `main.py` lines 14-38: missing key, missing directory and empty
document list each print a distinct message and call `exit()`. -/
def setup (env : Env) : Setup :=
  if env.hasApiKey = false then .exitedAt .missingKey
  else if env.dirExists = false then .exitedAt .missingDir
  else if env.documentos = [] then .exitedAt .noDocs
  else .enteredLoop

/-- CPython semantics of `exit(code)`: bare `exit()` raises
`SystemExit(None)`, which terminates the process with exit status 0;
`exit(n)` terminates with status `n`. -/
def pyExitStatus : Option Nat → Nat
  | none => 0
  | some n => n

/-- Process exit code of a console run: all three fatal setup paths call
bare `exit()` (`main.py` lines 17, 28, 38), and normal termination via
`break` on the exit word falls off the end of the script. -/
def exitCode (env : Env) : Nat :=
  match setup env with
  | .exitedAt _ => pyExitStatus none
  | .enteredLoop => 0

/-- Outcome of answering one question in the console loop: `main.py`
line 80 calls `qa_chain.invoke` with no surrounding try/except, so a
raised error propagates out of the loop (modelled as `crashed`). -/
inductive TurnOutcome where
  | printed (ans : List Char) : TurnOutcome
  | crashed (err : List Char) : TurnOutcome
deriving DecidableEq, Repr

/-- One console answer step (`main.py` lines 79-83): the QA chain is
invoked directly; a successful result is printed, an error propagates. -/
def answerTurn (chain : List Char → Except (List Char) (List Char))
    (pergunta : List Char) : TurnOutcome :=
  match chain pergunta with
  | .ok r => .printed r
  | .error e => .crashed e


theorem pyStrip_eq_nil_all_space {s : List Char}
    (h : pyStrip s = []) : ∀ c ∈ s, pyIsSpace c = true := by
  intro c hc
  have h1 : ((s.dropWhile pyIsSpace).reverse.dropWhile pyIsSpace) = [] := by
    have := congrArg List.reverse h
    simpa [pyStrip] using this
  have h2 : ∀ b ∈ (s.dropWhile pyIsSpace).reverse, pyIsSpace b = true :=
    List.dropWhile_eq_nil_iff.mp h1
  have h3 : ∀ b ∈ s.dropWhile pyIsSpace, pyIsSpace b = true := by
    intro b hb
    exact h2 b (List.mem_reverse.mpr hb)
  have hsplit : s.takeWhile pyIsSpace ++ s.dropWhile pyIsSpace = s :=
    List.takeWhile_append_dropWhile pyIsSpace s
  rw [← hsplit] at hc
  rcases List.mem_append.mp hc with hcm | hcm
  · exact List.mem_takeWhile_imp hcm
  · exact h3 c hcm

theorem strip_empty_not_sair {s : List Char}
    (h : pyStrip s = []) : pyLower s ≠ toL "sair" := by
  intro hl
  cases s with
  | nil => simp [pyLower, toL] at hl
  | cons c cs =>
    have hc : pyIsSpace c = true :=
      pyStrip_eq_nil_all_space h c (List.mem_cons_self _ _)
    have hhead : Char.toLower c = 's' := by
      have := congrArg List.head? hl
      simpa [pyLower, toL] using this
    have hcases : ((((c = ' ' ∨ c = '\t') ∨ c = '\n') ∨ c = '\x0d') ∨
        c = '\x0b') ∨ c = '\x0c' := by
      simpa [pyIsSpace] using hc
    rcases hcases with ((((h1 | h1) | h1) | h1) | h1) | h1 <;> subst h1 <;>
      exact absurd hhead (by decide)

end Console

namespace Loader

/-- One file prepared by `directory_loader.lazy_load()` in
`assistente_suporte.py` (lines 140-148): its path, and the result of
iterating it to obtain its document texts — either the texts or the
error message of the exception raised while loading. -/
structure FileLoad where
  file_path : List Char
  result : Except (List Char) (List (List Char))

/-- `os.path.basename`: the part of the path after the last slash. -/
def basename (p : List Char) : List Char :=
  (p.reverse.takeWhile (fun c => c ≠ '/')).reverse

/-- The warning entry built at `assistente_suporte.py` lines 146-148:
the f-string joining a fixed prefix, `os.path.basename(loader.file_path)`,
a fixed infix and the error text. -/
def failureEntry (p e : List Char) : List Char :=
  toL "Arquivo: '" ++ basename p ++ toL "' - Erro: " ++ e

/-- The per-file load loop of `assistente_suporte.py` lines 136-148:
successful loads extend `documentos`, a failure appends one warning entry
to `arquivos_com_erro`, and the loop always continues with the next
file. -/
def loadAll (items : List FileLoad) : List (List Char) × List (List Char) :=
  items.foldl
    (fun acc it =>
      match it.result with
      | .ok ds => (acc.1 ++ ds, acc.2)
      | .error e => (acc.1, acc.2 ++ [failureEntry it.file_path e]))
    ([], [])

/-- The documents contributed by the files that load successfully, in
discovery order. -/
def goodDocs : List FileLoad → List (List Char)
  | [] => []
  | it :: rest =>
    (match it.result with
     | .ok ds => ds
     | .error _ => []) ++ goodDocs rest

/-- The warning entries contributed by the files that fail, in discovery
order. -/
def failEntries : List FileLoad → List (List Char)
  | [] => []
  | it :: rest =>
    (match it.result with
     | .ok _ => []
     | .error e => [failureEntry it.file_path e]) ++ failEntries rest

/-- Substring test (Python `needle in hay` on strings). -/
def containsSub (needle hay : List Char) : Bool :=
  (List.range (hay.length + 1)).any (fun i => needle.isPrefixOf (hay.drop i))

theorem loadAll_go (items : List FileLoad) :
    ∀ d e, items.foldl
      (fun acc it =>
        match it.result with
        | .ok ds => (acc.1 ++ ds, acc.2)
        | .error er => (acc.1, acc.2 ++ [failureEntry it.file_path er]))
      (d, e) = (d ++ goodDocs items, e ++ failEntries items) := by
  induction items with
  | nil => intro d e; simp [goodDocs, failEntries]
  | cons it rest ih =>
    intro d e
    simp only [List.foldl_cons]
    cases h : it.result with
    | ok ds => simp [h, ih, goodDocs, failEntries, List.append_assoc]
    | error er => simp [h, ih, goodDocs, failEntries, List.append_assoc]

theorem loadAll_eq (items : List FileLoad) :
    loadAll items = (goodDocs items, failEntries items) := by
  simpa using loadAll_go items [] []

theorem failEntries_mem {items : List FileLoad} {it : FileLoad}
    {e : List Char} (hm : it ∈ items) (he : it.result = .error e) :
    failureEntry it.file_path e ∈ failEntries items := by
  induction items with
  | nil => cases hm
  | cons hd rest ih =>
    rcases List.mem_cons.mp hm with h | h
    · subst h; simp [failEntries, he]
    · have := ih h
      cases hr : hd.result <;> simp [failEntries, hr, this]

end Loader

namespace Chat

/-- Environment of one chat-UI run: whether `GOOGLE_API_KEY` is present,
whether `./base_de_conhecimento` exists, and the per-file load results
yielded by the external `directory_loader.lazy_load()`. -/
structure Env where
  hasApiKey : Bool
  dirExists : Bool
  items : List Loader.FileLoad

/-- `st.error` message for a missing credential
(`assistente_suporte.py` lines 113-116). -/
def msgMissingKey : String :=
  "A variável de ambiente GOOGLE_API_KEY não foi encontrada. Configure-a no arquivo .env."

/-- `st.error` message for a missing knowledge-base directory
(`assistente_suporte.py` lines 119-122). -/
def msgMissingDir : String :=
  "O diretório './base_de_conhecimento' não foi encontrado."

/-- `st.error` message when no document was read successfully
(`assistente_suporte.py` lines 156-159). -/
def msgNoDocs : String :=
  "Nenhum documento válido foi lido com sucesso na base de conhecimento."

/-- Result of `carregar_recursos`: the fatal paths return `(None, None)`
after emitting a distinct `st.error` message; success returns the QA
chain handle together with `len(documentos)`. -/
inductive SetupResult where
  | fatal (msg : String) : SetupResult
  | ready (numDocs : Nat) : SetupResult
deriving DecidableEq, Repr

/-- The body of `carregar_recursos` (`assistente_suporte.py`
lines 109-179): check API key, check directory, run the per-file load
loop, and fail with a distinct message if no document was produced. -/
def carregarRecursos (env : Env) : SetupResult :=
  if env.hasApiKey = false then .fatal msgMissingKey
  else if env.dirExists = false then .fatal msgMissingDir
  else
    let loaded := Loader.loadAll env.items
    if loaded.1 = [] then .fatal msgNoDocs
    else .ready loaded.1.length

/-- The `if qa_chain:` guard at `assistente_suporte.py` line 185: the chat
transcript and input are only rendered when setup returned a handle. -/
def loopEntered (env : Env) : Bool :=
  match carregarRecursos env with
  | .ready _ => true
  | .fatal _ => false

/-- Modelled from the spec: the process-wide memo table behind
`@st.cache_resource` (`assistente_suporte.py` line 108), which is
external library code.  Per §5, the built pipeline handle is a single
cached resource: the first call builds and stores it, every later call
with the same key returns the stored handle without recomputation. -/
structure Cache (α : Type) where
  value : Option α
  builds : Nat

/-- Modelled from the spec: one invocation of a `@st.cache_resource`
function — on a hit the cached handle is returned unchanged, on a miss
the underlying builder runs once and its result is stored. -/
def cachedCall {α : Type} (build : Unit → α) (s : Cache α) : α × Cache α :=
  match s.value with
  | some v => (v, s)
  | none =>
    let v := build ()
    (v, ⟨some v, s.builds + 1⟩)

/-- One turn of the chat transcript (`st.session_state.messages`
entries): a role tag and the message text. -/
structure Turn where
  role : String
  content : String
deriving DecidableEq, Repr

/-- The fixed greeting installed when `"messages"` is not yet in
`st.session_state` (`assistente_suporte.py` lines 190-192). -/
def initialMessages : List Turn :=
  [⟨"assistant", "Olá! Como posso te ajudar hoje?"⟩]

/-- The apology string built in the `except` branch at
`assistente_suporte.py` line 212. -/
def apology (e : String) : String :=
  "Desculpe, ocorreu um erro ao processar sua pergunta: " ++ e

/-- The `try`/`except` around `qa_chain.invoke`
(`assistente_suporte.py` lines 208-212): a successful invocation yields
`resultado["result"]`, a raised error is converted into the apology
text. -/
def turnContent (chain : String → Except String String) (prompt : String) :
    String :=
  match chain prompt with
  | .ok r => r
  | .error e => apology e

/-- Handling of one submitted prompt (`assistente_suporte.py`
lines 200-216): append the user turn, then append exactly one assistant
turn whose content is `turnContent`. -/
def chatStep (chain : String → Except String String) (msgs : List Turn)
    (prompt : String) : List Turn :=
  msgs ++ [⟨"user", prompt⟩, ⟨"assistant", turnContent chain prompt⟩]

/-- The transcript after a session that started with the greeting and
processed the given prompts in order. -/
def runChat (chain : String → Except String String) (prompts : List String) :
    List Turn :=
  prompts.foldl (chatStep chain) initialMessages

/-- The user/assistant turn pairs generated for a list of prompts. -/
def turnsFor (chain : String → Except String String) :
    List String → List Turn
  | [] => []
  | p :: ps =>
    ⟨"user", p⟩ :: ⟨"assistant", turnContent chain p⟩ :: turnsFor chain ps

theorem foldl_chatStep (chain : String → Except String String) :
    ∀ (prompts : List String) (msgs : List Turn),
      prompts.foldl (chatStep chain) msgs = msgs ++ turnsFor chain prompts := by
  intro prompts
  induction prompts with
  | nil => intro msgs; simp [turnsFor]
  | cons p ps ih =>
    intro msgs
    simp [List.foldl_cons, ih, chatStep, turnsFor]

theorem runChat_eq (chain : String → Except String String)
    (prompts : List String) :
    runChat chain prompts = initialMessages ++ turnsFor chain prompts :=
  foldl_chatStep chain prompts initialMessages

theorem turnsFor_append (chain : String → Except String String)
    (ps qs : List String) :
    turnsFor chain (ps ++ qs) = turnsFor chain ps ++ turnsFor chain qs := by
  induction ps with
  | nil => simp [turnsFor]
  | cons p ps ih => simp [turnsFor, ih]

end Chat

namespace Glob

/-- Fuel-indexed glob matcher with Python `fnmatch`/`pathlib` semantics
for the two patterns the repository uses: `*` matches any (possibly
empty) character sequence, every other character — including braces and
commas — matches only itself; there is no brace expansion in Python's
`pathlib` glob.  Fuel bounds the recursion; `pat.length + name.length + 1`
always suffices. -/
def fnmatchF : Nat → List Char → List Char → Bool
  | 0, _, _ => false
  | fuel + 1, pat, name =>
    match pat, name with
    | [], [] => true
    | [], _ :: _ => false
    | '*' :: ps, [] => fnmatchF fuel ps []
    | '*' :: ps, c :: ns =>
      fnmatchF fuel ps (c :: ns) || fnmatchF fuel ('*' :: ps) ns
    | p :: ps, [] => (p = '*') && fnmatchF fuel ps []
    | p :: ps, c :: ns => (p = c) && fnmatchF fuel ps ns

/-- Glob matching with enough fuel for the pattern and name at hand. -/
def fnmatch (pat name : List Char) : Bool :=
  fnmatchF (pat.length + name.length + 1) pat name

/-- The filename component of the chat front-end's glob pattern
`"**/*.\x7btxt,pdf,docx,md,sql,csv,doc,png,pptx,xlsx\x7d"`
(`assistente_suporte.py` line 128); under `pathlib` glob the braces and
commas are ordinary characters. -/
def chatGlobPat : List Char :=
  toL "*.\x7btxt,pdf,docx,md,sql,csv,doc,png,pptx,xlsx\x7d"

/-- The filename component of the console front-end's glob pattern
`"**/*.*"` (`main.py` line 31). -/
def consoleGlobPat : List Char :=
  toL "*.*"

/-- Whether a file with the given name directly under the knowledge-base
directory is enumerated by the chat front-end's `DirectoryLoader`
(the leading `**/` matches zero or more directories). -/
def matchesChatGlob (name : List Char) : Bool :=
  fnmatch chatGlobPat name

/-- Whether a file with the given name directly under the knowledge-base
directory is enumerated by the console front-end's `DirectoryLoader`. -/
def matchesConsoleGlob (name : List Char) : Bool :=
  fnmatch consoleGlobPat name

end Glob

namespace Splitter

/-- `chunk_size=1000` passed to the text splitter in both front-ends
(`main.py` line 45, `assistente_suporte.py` lines 162-163). -/
def chunkSize : Nat := 1000
/-- `chunk_overlap=200` passed to the text splitter in both front-ends. -/
def chunkOverlap : Nat := 200

/-- Concatenation of a list of lists. -/
def joinAll {α : Type} : List (List α) → List α
  | [] => []
  | p :: ps => p ++ joinAll ps

/-- Total character count of a list of text pieces. -/
def totalLen : List (List Char) → Nat
  | [] => 0
  | p :: ps => p.length + totalLen ps

/-- Modelled from the spec (§4.2): split a text at every occurrence of a
separator, keeping the separator attached to the preceding piece, so
that the pieces concatenate back to the original text.  The accumulator
holds the current piece reversed; fuel equal to the text length always
suffices because every step consumes at least one character. -/
def splitKeepSep (sep : List Char) : Nat → List Char → List Char →
    List (List Char)
  | 0, acc, text => [acc.reverse ++ text]
  | fuel + 1, acc, text =>
    match text with
    | [] => [acc.reverse]
    | c :: rest =>
      if sep.isPrefixOf (c :: rest) && !sep.isEmpty then
        (acc.reverse ++ sep) ::
          splitKeepSep sep fuel [] (List.drop sep.length (c :: rest))
      else splitKeepSep sep fuel (c :: acc) rest

/-- Modelled from the spec (§4.2): the raw-character fallback — hard cuts
at `chunk_size` boundaries, used only when no separator level remains. -/
def hardCutF : Nat → List Char → List (List Char)
  | 0, _ => []
  | fuel + 1, text =>
    if text.isEmpty then []
    else List.take chunkSize text :: hardCutF fuel (List.drop chunkSize text)

/-- Modelled from the spec (§4.2): recursively split a text on a
prioritized list of separators so that every resulting piece has length
at most `chunk_size`, preferring natural boundaries and falling back to
a hard character cut only when no separator level remains.  The chunker
itself lives in the external `RecursiveCharacterTextSplitter`; only its
parameters appear in the repository, so the algorithm is modelled from
the spec's description of the splitting policy. -/
def splitPieces : List (List Char) → List Char → List (List Char)
  | [], text => hardCutF text.length text
  | sep :: rest, text =>
    if text.length ≤ chunkSize then [text]
    else
      let ps := splitKeepSep sep text.length [] text
      if ps.length ≤ 1 then splitPieces rest text
      else joinAll (ps.map (splitPieces rest))

/-- Modelled from the spec (§4.2): the trailing pieces carried into the
next chunk as overlap — the longest suffix of the current chunk's
pieces whose total length is at most `chunk_overlap` and which still
leaves room for the next piece within `chunk_size`. -/
def carry (plen : Nat) : List (List Char) → List (List Char)
  | [] => []
  | c :: cs =>
    if totalLen (c :: cs) ≤ chunkOverlap ∧
       totalLen (c :: cs) + plen ≤ chunkSize then c :: cs
    else carry plen cs

/-- Modelled from the spec (§4.2): greedily merge the pieces into chunks
of total length at most `chunk_size`; when a piece does not fit, the
current chunk is emitted and the next chunk starts with the carried
overlap suffix followed by that piece. -/
def pack : List (List Char) → List (List Char) → List (List Char)
  | cur, [] => [joinAll cur]
  | cur, p :: ps =>
    if totalLen cur + p.length ≤ chunkSize then pack (cur ++ [p]) ps
    else joinAll cur :: pack (carry p.length cur ++ [p]) ps

/-- The separator priority list of §4.2: paragraph breaks, line breaks,
spaces, then the raw-character fallback (the base case of
`splitPieces`). -/
def separators : List (List Char) := [toL "\n\n", toL "\n", toL " "]

/-- Modelled from the spec (§4.2): chunking of one document's text with
`chunk_size=1000` and `chunk_overlap=200`. -/
def splitText (text : List Char) : List (List Char) :=
  pack [] (splitPieces separators text)

/-- `text_splitter.split_documents(documentos)`: chunk every document and
concatenate the chunk lists in document order. -/
def splitDocuments (docs : List (List Char)) : List (List Char) :=
  joinAll (docs.map splitText)

/-- The last `n` characters of a text. -/
def lastN (n : Nat) (l : List Char) : List Char := l.drop (l.length - n)

/-- A 2002-character document: a one-letter word, a 998-letter word, a
one-letter word and a 999-letter word, separated by single spaces.  The
splitter cuts it at the space boundaries into four chunks. -/
def sampleText : List Char :=
  'x' :: ' ' ::
    (List.replicate 998 'b' ++ (' ' :: 'y' :: ' ' :: List.replicate 999 'd'))

theorem walk_nil (sep : List Char) (fuel : Nat) (acc : List Char) :
    splitKeepSep sep fuel acc [] = [acc.reverse] := by
  cases fuel <;> simp [splitKeepSep]

theorem walk_char (sep₁ : Char) (sep' : List Char) {b : Char}
    (hb : (sep₁ == b) = false) (fuel : Nat) (acc text : List Char) :
    splitKeepSep (sep₁ :: sep') (fuel + 1) acc (b :: text) =
      splitKeepSep (sep₁ :: sep') fuel (b :: acc) text := by
  simp [splitKeepSep, List.isPrefixOf, hb]

theorem walk_space (fuel : Nat) (acc text : List Char) :
    splitKeepSep [' '] (fuel + 1) acc (' ' :: text) =
      (acc.reverse ++ [' ']) :: splitKeepSep [' '] fuel [] text := by
  simp [splitKeepSep, List.isPrefixOf]

theorem walk_block (sep₁ : Char) (sep' : List Char) {b : Char}
    (hb : (sep₁ == b) = false) :
    ∀ (n fuel : Nat) (acc text : List Char), n ≤ fuel →
      splitKeepSep (sep₁ :: sep') fuel acc (List.replicate n b ++ text) =
        splitKeepSep (sep₁ :: sep') (fuel - n)
          (List.replicate n b ++ acc) text := by
  intro n
  induction n with
  | zero => intro fuel acc text _; simp
  | succ m ih =>
    intro fuel acc text hf
    cases fuel with
    | zero => omega
    | succ f =>
      rw [List.replicate_succ, List.cons_append, walk_char sep₁ sep' hb]
      rw [ih f (b :: acc) text (by omega)]
      have hacc : List.replicate m b ++ b :: acc =
          b :: (List.replicate m b ++ acc) := by
        calc List.replicate m b ++ b :: acc
            = (List.replicate m b ++ [b]) ++ acc := by
              simp [List.append_assoc]
          _ = List.replicate (m + 1) b ++ acc := by
              rw [← List.replicate_succ' ]
          _ = b :: (List.replicate m b ++ acc) := by
              rw [List.replicate_succ]; simp
      rw [hacc]
      have hfuel : f - m = f + 1 - (m + 1) := by omega
      rw [hfuel]
      simp [List.replicate_succ]

theorem walk_nomatch (sep₁ : Char) (sep' : List Char) :
    ∀ (text : List Char) (fuel : Nat) (acc : List Char),
      (∀ b ∈ text, (sep₁ == b) = false) → text.length ≤ fuel →
      splitKeepSep (sep₁ :: sep') fuel acc text = [acc.reverse ++ text] := by
  intro text
  induction text with
  | nil => intro fuel acc _ _; simp [walk_nil]
  | cons b bs ih =>
    intro fuel acc h hf
    cases fuel with
    | zero => simp at hf
    | succ f =>
      rw [walk_char sep₁ sep' (h b (List.mem_cons_self _ _))]
      rw [ih f (b :: acc) (fun c hc => h c (List.mem_cons_of_mem _ hc))
        (by simp only [List.length_cons] at hf; omega)]
      simp [List.reverse_cons, List.append_assoc]

theorem no_newline_sample : ∀ b ∈ sampleText, ('\n' == b) = false := by
  intro b hb
  simp only [sampleText, List.mem_cons, List.mem_append,
    List.mem_replicate] at hb
  rcases hb with h | h | ⟨_, h⟩ | h | h | h | ⟨_, h⟩ <;> subst h <;> decide


theorem sample_length : sampleText.length = 2002 := by
  simp only [sampleText, List.length_cons, List.length_append,
    List.length_replicate]

theorem pass_newline2 :
    splitKeepSep (toL "\n\n") sampleText.length [] sampleText =
      [sampleText] := by
  rw [show toL "\n\n" = '\n' :: ['\n'] from rfl]
  rw [walk_nomatch '\n' ['\n'] sampleText sampleText.length []
    no_newline_sample (le_refl _)]
  simp

theorem pass_newline1 :
    splitKeepSep (toL "\n") sampleText.length [] sampleText =
      [sampleText] := by
  rw [show toL "\n" = '\n' :: [] from rfl]
  rw [walk_nomatch '\n' [] sampleText sampleText.length []
    no_newline_sample (le_refl _)]
  simp

theorem pass_space :
    splitKeepSep (toL " ") sampleText.length [] sampleText =
      [['x', ' '], List.replicate 998 'b' ++ [' '], ['y', ' '],
       List.replicate 999 'd'] := by
  rw [show toL " " = [' '] from rfl, sample_length]
  show splitKeepSep [' '] 2002 []
      ('x' :: ' ' :: (List.replicate 998 'b' ++
        (' ' :: 'y' :: ' ' :: List.replicate 999 'd'))) = _
  rw [show (2002 : Nat) = 2001 + 1 from rfl,
    walk_char ' ' [] (by decide) 2001]
  rw [show (2001 : Nat) = 2000 + 1 from rfl, walk_space 2000]
  rw [walk_block ' ' [] (by decide) 998 2000 _ _ (by norm_num)]
  rw [show (2000 - 998 : Nat) = 1001 + 1 from rfl, walk_space 1001]
  rw [show (1001 : Nat) = 1000 + 1 from rfl,
    walk_char ' ' [] (by decide) 1000]
  rw [show (1000 : Nat) = 999 + 1 from rfl, walk_space 999]
  rw [show List.replicate 999 'd' = List.replicate 999 'd' ++ ([] : List Char)
    from (List.append_nil _).symm]
  rw [walk_block ' ' [] (by decide) 999 999 _ _ (le_refl _)]
  rw [walk_nil]
  simp [List.reverse_replicate]

theorem hardCut_nil (f : Nat) : hardCutF f [] = [] := by
  cases f <;> simp [hardCutF]

theorem hardCut_small {l : List Char} (h1 : l ≠ [])
    (h2 : l.length ≤ chunkSize) : hardCutF l.length l = [l] := by
  cases hl : l.length with
  | zero => exact absurd (List.length_eq_zero.mp hl) h1
  | succ n =>
    simp only [hardCutF]
    rw [if_neg (by simp [List.isEmpty_iff, h1])]
    rw [List.take_of_length_le (by omega), List.drop_eq_nil_of_le (by omega),
      hardCut_nil]

theorem splitPieces_small {l : List Char} (h1 : l ≠ [])
    (h2 : l.length ≤ chunkSize) : splitPieces [] l = [l] := by
  simp only [splitPieces]
  exact hardCut_small h1 h2

theorem sample_not_small : ¬ (sampleText.length ≤ chunkSize) := by
  rw [sample_length]; norm_num [chunkSize]

theorem sp_space : splitPieces [toL " "] sampleText =
    [['x', ' '], List.replicate 998 'b' ++ [' '], ['y', ' '],
     List.replicate 999 'd'] := by
  rw [show splitPieces [toL " "] sampleText =
      (if sampleText.length ≤ chunkSize then [sampleText]
       else
        let ps := splitKeepSep (toL " ") sampleText.length [] sampleText
        if ps.length ≤ 1 then splitPieces [] sampleText
        else joinAll (ps.map (splitPieces []))) from rfl]
  rw [if_neg sample_not_small]
  simp only [pass_space]
  norm_num
  rw [splitPieces_small (by simp) (by norm_num [chunkSize])]
  rw [splitPieces_small (by simp) (by norm_num [chunkSize])]
  rw [splitPieces_small (by simp) (by norm_num [chunkSize])]
  rw [splitPieces_small (by simp) (by norm_num [chunkSize])]
  simp [joinAll]

theorem sp_newline1 : splitPieces [toL "\n", toL " "] sampleText =
    [['x', ' '], List.replicate 998 'b' ++ [' '], ['y', ' '],
     List.replicate 999 'd'] := by
  rw [show splitPieces [toL "\n", toL " "] sampleText =
      (if sampleText.length ≤ chunkSize then [sampleText]
       else
        let ps := splitKeepSep (toL "\n") sampleText.length [] sampleText
        if ps.length ≤ 1 then splitPieces [toL " "] sampleText
        else joinAll (ps.map (splitPieces [toL " "]))) from rfl]
  rw [if_neg sample_not_small]
  simp only [pass_newline1, List.length_cons, List.length_nil]
  rw [if_pos (by norm_num)]
  exact sp_space

theorem pieces_sample : splitPieces separators sampleText =
    [['x', ' '], List.replicate 998 'b' ++ [' '], ['y', ' '],
     List.replicate 999 'd'] := by
  rw [show splitPieces separators sampleText =
      (if sampleText.length ≤ chunkSize then [sampleText]
       else
        let ps := splitKeepSep (toL "\n\n") sampleText.length [] sampleText
        if ps.length ≤ 1 then splitPieces [toL "\n", toL " "] sampleText
        else joinAll (ps.map (splitPieces [toL "\n", toL " "]))) from rfl]
  rw [if_neg sample_not_small]
  simp only [pass_newline2, List.length_cons, List.length_nil]
  rw [if_pos (by norm_num)]
  exact sp_newline1

theorem pack_none (cur : List (List Char)) : pack cur [] = [joinAll cur] := by
  simp only [pack]

theorem pack_fits {cur : List (List Char)} {p : List Char}
    (ps : List (List Char)) (h : totalLen cur + p.length ≤ chunkSize) :
    pack cur (p :: ps) = pack (cur ++ [p]) ps := by
  simp only [pack]
  rw [if_pos h]

theorem pack_emit {cur : List (List Char)} {p : List Char}
    (ps : List (List Char)) (h : ¬ (totalLen cur + p.length ≤ chunkSize)) :
    pack cur (p :: ps) = joinAll cur :: pack (carry p.length cur ++ [p]) ps := by
  simp only [pack]
  rw [if_neg h]

theorem carry_nil (plen : Nat) : carry plen [] = [] := by
  simp only [carry]

theorem carry_drop {c : List Char} {cs : List (List Char)} {plen : Nat}
    (h : ¬ (totalLen (c :: cs) ≤ chunkOverlap ∧
      totalLen (c :: cs) + plen ≤ chunkSize)) :
    carry plen (c :: cs) = carry plen cs := by
  simp only [carry]
  rw [if_neg h]

theorem len_p2 : (List.replicate 998 'b' ++ [' ']).length = 999 := by
  simp only [List.length_append, List.length_replicate, List.length_cons,
    List.length_nil]

theorem totalLen_one (p : List Char) : totalLen [p] = p.length := by
  simp [totalLen]

theorem pack_sample :
    pack [] [['x', ' '], List.replicate 998 'b' ++ [' '], ['y', ' '],
      List.replicate 999 'd'] =
    [['x', ' '], List.replicate 998 'b' ++ [' '], ['y', ' '],
     List.replicate 999 'd'] := by
  rw [pack_fits _ (by simp [totalLen, chunkSize])]
  simp only [List.nil_append]
  rw [pack_emit _ (by
    simp only [totalLen, len_p2, List.length_cons, List.length_nil, chunkSize]
    omega)]
  simp only [len_p2]
  rw [carry_drop (by
    simp only [totalLen, List.length_cons, List.length_nil, chunkSize,
      chunkOverlap]
    omega)]
  rw [carry_nil]
  simp only [List.nil_append]
  rw [pack_emit _ (by
    simp only [totalLen, len_p2, List.length_cons, List.length_nil, chunkSize]
    omega)]
  simp only [List.length_cons, List.length_nil]
  rw [carry_drop (by
    simp only [totalLen, len_p2, chunkSize, chunkOverlap]
    omega)]
  rw [carry_nil]
  simp only [List.nil_append]
  rw [pack_emit _ (by
    simp only [totalLen, List.length_cons, List.length_nil,
      List.length_replicate, chunkSize]
    omega)]
  simp only [List.length_replicate]
  rw [carry_drop (by
    simp only [totalLen, List.length_cons, List.length_nil, chunkSize,
      chunkOverlap]
    omega)]
  rw [carry_nil]
  simp only [List.nil_append]
  rw [pack_none]
  simp [joinAll]

theorem chunks_sample : splitText sampleText =
    [['x', ' '], List.replicate 998 'b' ++ [' '], ['y', ' '],
     List.replicate 999 'd'] := by
  rw [splitText, pieces_sample, pack_sample]

theorem overlap_mismatch :
    lastN 200 (List.replicate 998 'b' ++ [' ']) ≠
      List.take 200 (['y', ' '] : List Char) := by
  intro h
  have hlen := congrArg List.length h
  simp only [lastN, len_p2, List.length_drop, List.length_take,
    List.length_cons, List.length_nil] at hlen
  omega

theorem mem_joinAll {α : Type} {a : α} :
    ∀ {L : List (List α)}, a ∈ joinAll L ↔ ∃ l ∈ L, a ∈ l := by
  intro L
  induction L with
  | nil => simp [joinAll]
  | cons p ps ih => simp [joinAll, List.mem_append, ih]

theorem totalLen_append (xs ys : List (List Char)) :
    totalLen (xs ++ ys) = totalLen xs + totalLen ys := by
  induction xs with
  | nil => simp [totalLen]
  | cons p ps ih =>
    simp [totalLen, ih]
    omega

theorem length_joinAll (ps : List (List Char)) :
    (joinAll ps).length = totalLen ps := by
  induction ps with
  | nil => simp [joinAll, totalLen]
  | cons p rest ih => simp [joinAll, totalLen, ih]

theorem hardCutF_bound (fuel : Nat) :
    ∀ text c, c ∈ hardCutF fuel text → c.length ≤ chunkSize := by
  induction fuel with
  | zero => intro text c hc; simp [hardCutF] at hc
  | succ n ih =>
    intro text c hc
    by_cases he : text.isEmpty
    · simp [hardCutF, he] at hc
    · simp only [hardCutF, he, Bool.false_eq_true, if_false,
        List.mem_cons] at hc
      rcases hc with h | h
      · subst h
        simp
      · exact ih _ _ h

theorem splitPieces_bound :
    ∀ seps text p, p ∈ splitPieces seps text → p.length ≤ chunkSize := by
  intro seps
  induction seps with
  | nil =>
    intro text p hp
    exact hardCutF_bound _ _ _ hp
  | cons sep rest ih =>
    intro text p hp
    by_cases hfit : text.length ≤ chunkSize
    · simp [splitPieces, hfit] at hp
      subst hp
      exact hfit
    · simp only [splitPieces, hfit, if_false] at hp
      by_cases hone : (splitKeepSep sep text.length [] text).length ≤ 1
      · simp only [hone, if_true] at hp
        exact ih _ _ hp
      · simp only [hone, if_false] at hp
        rcases mem_joinAll.mp hp with ⟨l, hl, hpl⟩
        rcases List.mem_map.mp hl with ⟨q, _, rfl⟩
        exact ih _ _ hpl

theorem carry_bound (plen : Nat) (hp : plen ≤ chunkSize) :
    ∀ cur, totalLen (carry plen cur) + plen ≤ chunkSize := by
  intro cur
  induction cur with
  | nil =>
    simp only [carry, totalLen]
    omega
  | cons c cs ih =>
    by_cases h : totalLen (c :: cs) ≤ chunkOverlap ∧
        totalLen (c :: cs) + plen ≤ chunkSize
    · simp [carry, h]
    · simpa [carry, h] using ih

theorem pack_bound :
    ∀ (ps cur : List (List Char)),
      (∀ p ∈ ps, p.length ≤ chunkSize) → totalLen cur ≤ chunkSize →
      ∀ c ∈ pack cur ps, c.length ≤ chunkSize := by
  intro ps
  induction ps with
  | nil =>
    intro cur _ hcur c hc
    simp [pack] at hc
    subst hc
    simpa [length_joinAll] using hcur
  | cons p rest ih =>
    intro cur hps hcur c hc
    have hplen : p.length ≤ chunkSize := hps p (List.mem_cons_self _ _)
    have hrest : ∀ q ∈ rest, q.length ≤ chunkSize :=
      fun q hq => hps q (List.mem_cons_of_mem _ hq)
    by_cases hfit : totalLen cur + p.length ≤ chunkSize
    · simp only [pack, hfit, if_true] at hc
      have hcur2 : totalLen (cur ++ [p]) ≤ chunkSize := by
        simpa [totalLen_append, totalLen] using hfit
      exact ih _ hrest hcur2 c hc
    · simp only [pack, hfit, if_false, List.mem_cons] at hc
      rcases hc with h | h
      · subst h
        simpa [length_joinAll] using hcur
      · have hcarry : totalLen (carry p.length cur ++ [p]) ≤ chunkSize := by
          have := carry_bound p.length hplen cur
          simpa [totalLen_append, totalLen] using this
        exact ih _ hrest hcarry c h

theorem splitText_bound (text : List Char) :
    ∀ c ∈ splitText text, c.length ≤ chunkSize := by
  intro c hc
  exact pack_bound _ [] (fun p hp => splitPieces_bound _ _ _ hp)
    (by simp [totalLen, chunkSize]) c hc

end Splitter

example : Splitter.splitText (toL "oi") = [toL "oi"] := by decide

example : Glob.matchesChatGlob (toL "manual.txt") = false := by decide
example : Glob.matchesConsoleGlob (toL "manual.txt") = true := by decide
example : Glob.matchesConsoleGlob (toL "malware.exe") = true := by decide
example :
    Glob.matchesChatGlob
      (toL "a.\x7btxt,pdf,docx,md,sql,csv,doc,png,pptx,xlsx\x7d") = true := by
  decide

example : Console.handleInput (toL "SaIr") = .quits := by decide
example : Console.handleInput (toL "exit") = .asks (toL "exit") := by decide
example : Console.handleInput (toL " sair ") = .asks (toL " sair ") := by decide
example : Console.handleInput (toL "  ") = .skips := by decide
example : Console.exitCode ⟨false, true, [toL "d"]⟩ = 0 := by decide
example :
    Loader.loadAll
      [⟨toL "./kb/a.txt", .ok [toL "conteudo"]⟩,
       ⟨toL "./kb/sub/bad.pdf", .error (toL "parse error")⟩] =
      ([toL "conteudo"],
       [Loader.failureEntry (toL "./kb/sub/bad.pdf") (toL "parse error")]) := by
  decide

/-! ## Claims -/

/-- C1 counterexample: in the console front-end, a failure raised while
answering is not converted into an apology — `main.py` line 80 invokes
the QA chain with no try/except, so with a chain that raises
`ConnectionError` the error propagates out of the question loop and the
loop crashes, falsifying the claim that any failure raised while
answering is caught and the session loop never crashes. -/
theorem c1_counterexample :
    Console.answerTurn (fun _ => Except.error (toL "ConnectionError"))
      (toL "como redefinir minha senha?") =
      Console.TurnOutcome.crashed (toL "ConnectionError") := rfl

/-- C1 (amended): in the chat front-end, any failure raised while
answering a question is caught and converted into a user-visible apology
message containing the error description, and prior and subsequent
question/answer turns are unaffected; the console front-end does not
catch answer-time failures — there the error propagates and crashes the
question loop. -/
theorem c1_error_containment (chain : String → Except String String)
    (p e : String) (ps1 ps2 : List String) (h : chain p = Except.error e)
    (cchain : List Char → Except (List Char) (List Char))
    (cq ce : List Char) (hc : cchain cq = Except.error ce) :
    Chat.runChat chain (ps1 ++ p :: ps2) =
      Chat.runChat chain ps1 ++
        (⟨"user", p⟩ : Chat.Turn) ::
          (⟨"assistant", Chat.apology e⟩ : Chat.Turn) ::
            Chat.turnsFor chain ps2 ∧
    Chat.turnContent chain p = Chat.apology e ∧
    Chat.apology e =
      "Desculpe, ocorreu um erro ao processar sua pergunta: " ++ e ∧
    Console.answerTurn cchain cq = Console.TurnOutcome.crashed ce := by
  refine ⟨?_, ?_, rfl, ?_⟩
  · have h1 : Chat.runChat chain (ps1 ++ p :: ps2) =
        (p :: ps2).foldl (Chat.chatStep chain) (Chat.runChat chain ps1) := by
      rw [Chat.runChat, List.foldl_append]
      rfl
    rw [h1, Chat.foldl_chatStep]
    simp [Chat.turnsFor, Chat.turnContent, h]
  · simp [Chat.turnContent, h]
  · simp [Console.answerTurn, hc]

/-- C1 witness: instance of `c1_error_containment` at a concrete failing
chain, showing the apology turn and the console crash concretely. -/
theorem c1_error_containment_witness :
    Chat.runChat (fun _ => Except.error "falha de rede")
        (["a"] ++ "b" :: ["c"]) =
      Chat.runChat (fun _ => Except.error "falha de rede") ["a"] ++
        (⟨"user", "b"⟩ : Chat.Turn) ::
          (⟨"assistant", Chat.apology "falha de rede"⟩ : Chat.Turn) ::
            Chat.turnsFor (fun _ => Except.error "falha de rede") ["c"] ∧
    Chat.turnContent (fun _ => Except.error "falha de rede") "b" =
      Chat.apology "falha de rede" ∧
    Chat.apology "falha de rede" =
      "Desculpe, ocorreu um erro ao processar sua pergunta: " ++
        "falha de rede" ∧
    Console.answerTurn (fun _ => Except.error (toL "falha"))
      (toL "pergunta") = Console.TurnOutcome.crashed (toL "falha") :=
  c1_error_containment (fun _ => Except.error "falha de rede") "b"
    "falha de rede" ["a"] ["c"] rfl
    (fun _ => Except.error (toL "falha")) (toL "pergunta") (toL "falha") rfl

/-- C2 counterexample: the console exit check is
`pergunta.lower() == 'sair'` only, so the input `exit` does not terminate
the question loop — it is forwarded to the QA chain as a question —
falsifying the claim that `exit` terminates the loop. -/
theorem c2_counterexample :
    Console.handleInput (toL "exit") = Console.Action.asks (toL "exit") ∧
    Console.handleInput (toL "EXIT") = Console.Action.asks (toL "EXIT") := by
  exact ⟨by decide, by decide⟩

/-- C2 (amended): exactly the console inputs whose lowercased form equals
`sair` terminate the question loop; `exit` is not an exit command and no
other input terminates the loop. -/
theorem c2_exit_condition (s : List Char) :
    Console.handleInput s = Console.Action.quits ↔
      Console.pyLower s = toL "sair" := by
  unfold Console.handleInput
  by_cases h : Console.pyLower s = toL "sair"
  · simp [h]
  · by_cases h2 : Console.pyStrip s = [] <;> simp [h, h2]

/-- C3 counterexample: the warning entry recorded for a failed file
contains only the base name of the file, not the file's path — the
recorded entry for `./base_de_conhecimento/sub/corrompido.pdf` does not
contain that path — falsifying the claim that the recorded failure
contains the file's path. -/
theorem c3_counterexample :
    (Loader.loadAll
      [⟨toL "./base_de_conhecimento/manual.txt",
          Except.ok [toL "como redefinir a senha"]⟩,
       ⟨toL "./base_de_conhecimento/sub/corrompido.pdf",
          Except.error (toL "parse error")⟩]).2 =
      [Loader.failureEntry (toL "./base_de_conhecimento/sub/corrompido.pdf")
        (toL "parse error")] ∧
    Loader.containsSub (toL "./base_de_conhecimento/sub/corrompido.pdf")
      (Loader.failureEntry (toL "./base_de_conhecimento/sub/corrompido.pdf")
        (toL "parse error")) = false := by
  exact ⟨by decide, by decide⟩

/-- C3 (amended): a parse failure of one file is caught and recorded as a
failure entry containing the file's base name and the error message,
loading continues with the remaining files, and the overall load never
aborts because of a single bad file (every successfully parsed document
is collected regardless of failures elsewhere). -/
theorem c3_fault_isolation (items : List Loader.FileLoad)
    (it : Loader.FileLoad) (e : List Char)
    (hm : it ∈ items) (he : it.result = Except.error e) :
    (Loader.loadAll items).1 = Loader.goodDocs items ∧
    Loader.failureEntry it.file_path e ∈ (Loader.loadAll items).2 ∧
    ∃ pre mid, Loader.failureEntry it.file_path e =
      pre ++ Loader.basename it.file_path ++ (mid ++ e) := by
  refine ⟨by rw [Loader.loadAll_eq], ?_, ?_⟩
  · rw [Loader.loadAll_eq]
    exact Loader.failEntries_mem hm he
  · exact ⟨toL "Arquivo: '", toL "' - Erro: ",
      by simp [Loader.failureEntry, List.append_assoc]⟩

/-- C3 witness: instance of `c3_fault_isolation` for a directory with one
valid file and one corrupted file. -/
theorem c3_fault_isolation_witness :
    (Loader.loadAll
      [⟨toL "manual.txt", Except.ok [toL "conteudo"]⟩,
       ⟨toL "corrompido.pdf", Except.error (toL "erro de parse")⟩]).1 =
      Loader.goodDocs
        [⟨toL "manual.txt", Except.ok [toL "conteudo"]⟩,
         ⟨toL "corrompido.pdf", Except.error (toL "erro de parse")⟩] ∧
    Loader.failureEntry (toL "corrompido.pdf") (toL "erro de parse") ∈
      (Loader.loadAll
        [⟨toL "manual.txt", Except.ok [toL "conteudo"]⟩,
         ⟨toL "corrompido.pdf", Except.error (toL "erro de parse")⟩]).2 ∧
    ∃ pre mid, Loader.failureEntry (toL "corrompido.pdf")
        (toL "erro de parse") =
      pre ++ Loader.basename (toL "corrompido.pdf") ++
        (mid ++ toL "erro de parse") :=
  c3_fault_isolation
    [⟨toL "manual.txt", Except.ok [toL "conteudo"]⟩,
     ⟨toL "corrompido.pdf", Except.error (toL "erro de parse")⟩]
    ⟨toL "corrompido.pdf", Except.error (toL "erro de parse")⟩
    (toL "erro de parse")
    (List.mem_cons_of_mem _ (List.mem_cons_self _ _)) rfl

/-- C4: whenever setup produces zero documents (including when the
knowledge-base directory is missing), setup fails with the distinct
no-documents (respectively directory-not-found) condition, the question
loop is never entered, and the specific failure message is presented. -/
theorem c4_no_documents_fatal (ce : Chat.Env) (me : Console.Env) :
    (ce.hasApiKey = true → ce.dirExists = true →
      (Loader.loadAll ce.items).1 = [] →
      Chat.carregarRecursos ce = Chat.SetupResult.fatal Chat.msgNoDocs ∧
      Chat.loopEntered ce = false) ∧
    (ce.hasApiKey = true → ce.dirExists = false →
      Chat.carregarRecursos ce = Chat.SetupResult.fatal Chat.msgMissingDir ∧
      Chat.loopEntered ce = false) ∧
    (me.hasApiKey = true → me.dirExists = true → me.documentos = [] →
      Console.setup me = Console.Setup.exitedAt Console.Stage.noDocs) ∧
    (me.hasApiKey = true → me.dirExists = false →
      Console.setup me = Console.Setup.exitedAt Console.Stage.missingDir) ∧
    Chat.msgNoDocs ≠ Chat.msgMissingDir ∧
    Chat.msgNoDocs ≠ Chat.msgMissingKey := by
  refine ⟨?_, ?_, ?_, ?_, by decide, by decide⟩
  · intro h1 h2 h3
    constructor
    · simp [Chat.carregarRecursos, h1, h2, h3]
    · simp [Chat.loopEntered, Chat.carregarRecursos, h1, h2, h3]
  · intro h1 h2
    constructor
    · simp [Chat.carregarRecursos, h1, h2]
    · simp [Chat.loopEntered, Chat.carregarRecursos, h1, h2]
  · intro h1 h2 h3
    simp [Console.setup, h1, h2, h3]
  · intro h1 h2
    simp [Console.setup, h1, h2]

/-- C4 witness: instance of `c4_no_documents_fatal` — an empty chat
knowledge base, a missing directory, and an empty console document
list. -/
theorem c4_no_documents_fatal_witness :
    (Chat.carregarRecursos ⟨true, true, []⟩ =
      Chat.SetupResult.fatal Chat.msgNoDocs ∧
      Chat.loopEntered ⟨true, true, []⟩ = false) ∧
    (Chat.carregarRecursos ⟨true, false, []⟩ =
      Chat.SetupResult.fatal Chat.msgMissingDir ∧
      Chat.loopEntered ⟨true, false, []⟩ = false) ∧
    Console.setup ⟨true, true, []⟩ =
      Console.Setup.exitedAt Console.Stage.noDocs ∧
    Console.setup ⟨true, false, []⟩ =
      Console.Setup.exitedAt Console.Stage.missingDir :=
  ⟨(c4_no_documents_fatal ⟨true, true, []⟩ ⟨true, true, []⟩).1 rfl rfl rfl,
   (c4_no_documents_fatal ⟨true, false, []⟩ ⟨true, true, []⟩).2.1 rfl rfl,
   (c4_no_documents_fatal ⟨true, true, []⟩ ⟨true, true, []⟩).2.2.1
     rfl rfl rfl,
   (c4_no_documents_fatal ⟨true, true, []⟩ ⟨true, false, []⟩).2.2.2.1
     rfl rfl⟩

/-- C5 counterexample: the console process exit code is 0 — not non-zero —
on fatal setup failures, because every fatal path calls bare `exit()`:
with the credential missing the run ends with exit code 0, and likewise
with the knowledge-base directory missing, falsifying the claim that the
exit code is non-zero on every fatal setup failure. -/
theorem c5_counterexample :
    Console.exitCode ⟨false, true, [toL "doc"]⟩ = 0 ∧
    Console.exitCode ⟨true, false, []⟩ = 0 := ⟨rfl, rfl⟩

/-- C5 (amended): the console front-end's process exit code is 0 on
normal termination and also 0 on every fatal setup failure, because the
script terminates through bare `exit()` (which exits with status 0) on
all fatal paths. -/
theorem c5_exit_code (env : Console.Env) : Console.exitCode env = 0 := by
  unfold Console.exitCode
  cases Console.setup env <;> rfl

/-- C6: the chat loader's glob pattern uses brace syntax that Python's
`pathlib` glob does not expand, so it fails to enumerate ordinary files
with accepted extensions (`manual.txt`, `guia.pdf`) and matches only
filenames that literally end in the brace expression; the console
loader's pattern `*.*` enumerates every dotted filename, including
unsupported extensions such as `.exe`. -/
theorem c6_glob_mismatch :
    Glob.matchesChatGlob (toL "manual.txt") = false ∧
    Glob.matchesChatGlob (toL "guia.pdf") = false ∧
    Glob.matchesChatGlob
      (toL "a.\x7btxt,pdf,docx,md,sql,csv,doc,png,pptx,xlsx\x7d") = true ∧
    Glob.matchesConsoleGlob (toL "manual.txt") = true ∧
    Glob.matchesConsoleGlob (toL "malware.exe") = true := by
  exact ⟨by decide, by decide, by decide, by decide, by decide⟩

/-- C7 counterexample: chunking a 2002-character document with
`chunk_size=1000`, `chunk_overlap=200` produces four chunks, and the
adjacent pair at positions 1 and 2 — neither of which is the first or
the last chunk of the document — does not share exactly 200 characters
of overlapping context: the chunk at position 2 is only 2 characters
long, and the trailing 200 characters of the chunk at position 1 differ
from its leading 200 characters.  This falsifies the exact-overlap half
of the claim. -/
theorem c7_counterexample :
    Splitter.splitText Splitter.sampleText =
      [['x', ' '], List.replicate 998 'b' ++ [' '], ['y', ' '],
       List.replicate 999 'd'] ∧
    Splitter.lastN 200 (List.replicate 998 'b' ++ [' ']) ≠
      List.take 200 (['y', ' '] : List Char) :=
  ⟨Splitter.chunks_sample, Splitter.overlap_mismatch⟩

/-- C7 (amended): every chunk produced by the chunker with
`chunk_size=1000` and `chunk_overlap=200` has length at most
`chunk_size`; adjacent chunks need not share exactly `chunk_overlap`
characters of context, because the overlap is aligned to separator
boundaries (see `c7_counterexample`). -/
theorem c7_chunk_length_bound (docs : List (List Char)) (c : List Char)
    (hc : c ∈ Splitter.splitDocuments docs) :
    c.length ≤ Splitter.chunkSize := by
  rcases Splitter.mem_joinAll.mp hc with ⟨l, hl, hcl⟩
  rcases List.mem_map.mp hl with ⟨d, _, rfl⟩
  exact Splitter.splitText_bound d c hcl

/-- C7 witness: instance of `c7_chunk_length_bound` for a two-character
document, which is its own single chunk. -/
theorem c7_chunk_length_bound_witness :
    toL "oi" ∈ Splitter.splitDocuments [toL "oi"] ∧
    (toL "oi").length ≤ Splitter.chunkSize :=
  ⟨by decide, c7_chunk_length_bound [toL "oi"] (toL "oi") (by decide)⟩

/-- C8: invoking the cached setup twice within one process with identical
inputs triggers the underlying build exactly once; the second invocation
returns the previously built handle and leaves the cache unchanged. -/
theorem c8_setup_cached (env : Chat.Env) :
    (Chat.cachedCall (fun _ => Chat.carregarRecursos env)
      (Chat.cachedCall (fun _ => Chat.carregarRecursos env)
        ⟨none, 0⟩).2).2.builds = 1 ∧
    (Chat.cachedCall (fun _ => Chat.carregarRecursos env)
      (Chat.cachedCall (fun _ => Chat.carregarRecursos env)
        ⟨none, 0⟩).2).1 =
      (Chat.cachedCall (fun _ => Chat.carregarRecursos env) ⟨none, 0⟩).1 ∧
    (Chat.cachedCall (fun _ => Chat.carregarRecursos env)
      (Chat.cachedCall (fun _ => Chat.carregarRecursos env)
        ⟨none, 0⟩).2).2 =
      (Chat.cachedCall (fun _ => Chat.carregarRecursos env) ⟨none, 0⟩).2 := by
  refine ⟨rfl, rfl, rfl⟩

/-- C9: the chat transcript always begins with the fixed assistant
greeting, the history is append-only (processing one more prompt only
appends to the previous transcript), every appended user turn is
immediately followed by exactly one assistant turn, and when answering
fails the apology text is that assistant turn's content. -/
theorem c9_transcript_shape (chain : String → Except String String)
    (prompts : List String) :
    Chat.runChat chain prompts =
      Chat.initialMessages ++ Chat.turnsFor chain prompts ∧
    (Chat.runChat chain prompts).head? =
      some ⟨"assistant", "Olá! Como posso te ajudar hoje?"⟩ ∧
    (∀ p, Chat.runChat chain (prompts ++ [p]) =
      Chat.runChat chain prompts ++
        [⟨"user", p⟩, ⟨"assistant", Chat.turnContent chain p⟩]) ∧
    (∀ p e, chain p = Except.error e →
      Chat.turnContent chain p = Chat.apology e) := by
  refine ⟨Chat.runChat_eq chain prompts, ?_, ?_, ?_⟩
  · rw [Chat.runChat_eq]
    rfl
  · intro p
    rw [Chat.runChat_eq, Chat.runChat_eq, Chat.turnsFor_append]
    simp [Chat.turnsFor, List.append_assoc]
  · intro p e h
    simp [Chat.turnContent, h]

/-- C9 witness: instance of `c9_transcript_shape` at a failing chain — the
assistant turn appended for the failed prompt carries the apology. -/
theorem c9_transcript_shape_witness :
    Chat.turnContent (fun _ => Except.error "indisponivel") "pergunta" =
      Chat.apology "indisponivel" :=
  (c9_transcript_shape (fun _ => Except.error "indisponivel") []).2.2.2
    "pergunta" "indisponivel" rfl

/-- C10: the console exit check runs on the raw lowercased input before
the whitespace check and without stripping: the input `" sair "` (with
surrounding whitespace) does not terminate the loop and is forwarded to
the QA chain unchanged, while empty or whitespace-only input is skipped
silently without invoking the chain; in general, any input that is not
the exit word and is nonempty after stripping is forwarded raw. -/
theorem c10_input_order :
    Console.handleInput (toL " sair ") =
      Console.Action.asks (toL " sair ") ∧
    Console.handleInput (toL "") = Console.Action.skips ∧
    Console.handleInput (toL " \t ") = Console.Action.skips ∧
    (∀ s, Console.pyStrip s = [] →
      Console.handleInput s = Console.Action.skips) ∧
    (∀ s, Console.pyLower s ≠ toL "sair" → Console.pyStrip s ≠ [] →
      Console.handleInput s = Console.Action.asks s) := by
  refine ⟨by decide, by decide, by decide, ?_, ?_⟩
  · intro s hs
    have hns := Console.strip_empty_not_sair hs
    simp [Console.handleInput, hns, hs]
  · intro s h1 h2
    simp [Console.handleInput, h1, h2]

/-- C10 witness: instance of `c10_input_order` — a whitespace-only input
is skipped, and an ordinary question is forwarded raw. -/
theorem c10_input_order_witness :
    Console.handleInput (toL "  ") = Console.Action.skips ∧
    Console.handleInput (toL "ola") = Console.Action.asks (toL "ola") :=
  ⟨c10_input_order.2.2.2.1 (toL "  ") (by decide),
   c10_input_order.2.2.2.2 (toL "ola") (by decide) (by decide)⟩
